import Mathlib

/-!
# geodesist: the AmpliFi collector and client

A shallow embedding of `geodesist/metrics.go` and `geodesist/amplifi.go`, and
the properties of the poll cycle proved on it.

Conventions of the embedding.

* A decoded JSON value (a Go `interface{}` filled by `json.Unmarshal`) is a
  `JSON` tree.  A Go `map[string]interface{}` is a list of key/value pairs;
  the order of the list is the order in which `range` happens to visit the
  map, so a statement quantified over all lists holds for every iteration
  order.  `m[key]` is `List.lookup key m`.
* A `float64` coming from a JSON number is an integer (`Int`): the code only
  subtracts two such values and compares the difference with zero, and both
  are exact in sign on finite floats.
* The process-wide metrics registry is the log of the update calls made on it
  (`Metric`); the value of a counter is the sum of the amounts added to it,
  the value of a gauge the last value set.
* A page is the list of its characters; the three regular expressions are
  run by a backtracking matcher (`matchHere`, `findSubmatch`).
* The router is a record of the answers it gives to the four requests of a
  poll cycle (`Router`); the client keeps a ghost log of the requests it sent
  (`AmpliFiClient.sent`), and an error is its message.
-/

namespace Geodesist

/-! ## Decoded JSON -/

/-- A decoded JSON value, as `encoding/json` stores it in an `interface{}`. -/
inductive JSON where
  | null : JSON
  | bool (b : Bool) : JSON
  | num (n : Int) : JSON
  | str (s : String) : JSON
  | arr (xs : List JSON) : JSON
  | obj (kvs : List (String × JSON)) : JSON

/-- A Go `map[string]interface{}` together with its iteration order. -/
abbrev GoMap := List (String × JSON)

/-- The type assertion `v.(map[string]interface{})`. -/
def asMap : JSON → Option GoMap
  | JSON.obj kvs => some kvs
  | _ => none

/-- The type assertion `v.(float64)`. -/
def asFloat : JSON → Option Int
  | JSON.num n => some n
  | _ => none

/-- The type assertion `v.(string)`. -/
def asString : JSON → Option String
  | JSON.str s => some s
  | _ => none

/-- The expression `m[key].(float64)`: a missing key gives the nil interface,
on which the assertion fails. -/
def floatField (m : GoMap) (key : String) : Option Int :=
  (m.lookup key).bind asFloat

/-- The helper `getStringValue` (metrics.go 171-176). -/
def getStringValue (m : GoMap) (key defaultValue : String) : String :=
  match (m.lookup key).bind asString with
  | some val => if val ≠ "" then val else defaultValue
  | none => defaultValue

/-- Decoding of one array element into `map[string]interface{}`: an object
gives its map, `null` the nil map, anything else a type error. -/
def decodeElement : JSON → Option GoMap
  | JSON.obj kvs => some kvs
  | JSON.null => some []
  | _ => none

/-- Decoding of the array elements; `none` when one of them is a type error. -/
def decodeElements : List JSON → Option (List GoMap)
  | [] => some []
  | x :: xs =>
    match decodeElement x, decodeElements xs with
    | some m, some ms => some (m :: ms)
    | _, _ => none

/-- The call `json.Unmarshal(data, &response)` with
`response []map[string]interface{}` (metrics.go 77-80) on the JSON value the
bytes denote; `none` is a returned error. -/
def unmarshal : JSON → Option (List GoMap)
  | JSON.arr xs => decodeElements xs
  | JSON.null => some []
  | _ => none

/-! ## The metrics registry -/

/-- One update call on the registered metrics (metrics.go 9-45), with the
argument the code passes: `Add` on a labelled byte counter, `Set` on a gauge.
What the registry library does with the argument (it refuses a negative
amount on a counter) is not part of the embedding. -/
inductive Metric where
  | txBytesAdd (host : String) (v : Int) : Metric
  | rxBytesAdd (host : String) (v : Int) : Metric
  | globalTxBitrateSet (v : Int) : Metric
  | globalRxBitrateSet (v : Int) : Metric
  | clientCountSet (v : Int) : Metric
  | signalQualitySet (host : String) (v : Int) : Metric
  | happinessSet (host : String) (v : Int) : Metric
  deriving DecidableEq, Repr

/-- The amount a call adds to `amplifi_total_tx_bytes` for `host`. -/
def Metric.txAmount (host : String) : Metric → Int
  | Metric.txBytesAdd h v => if h = host then v else 0
  | _ => 0

/-- The amount a call adds to `amplifi_total_rx_bytes` for `host`. -/
def Metric.rxAmount (host : String) : Metric → Int
  | Metric.rxBytesAdd h v => if h = host then v else 0
  | _ => 0

/-- The value of the tx counter of `host` after the calls of `log`. -/
def txCounter (log : List Metric) (host : String) : Int :=
  (log.map (Metric.txAmount host)).sum

/-- The value of the rx counter of `host` after the calls of `log`. -/
def rxCounter (log : List Metric) (host : String) : Int :=
  (log.map (Metric.rxAmount host)).sum

/-- The value of the signal-quality gauge of `host` after the calls of `log`. -/
def signalGauge (log : List Metric) (host : String) : Option Int :=
  log.foldl (fun acc e =>
    match e with
    | Metric.signalQualitySet h v => if h = host then some v else acc
    | _ => acc) none

/-- The value of the happiness gauge of `host` after the calls of `log`. -/
def happinessGauge (log : List Metric) (host : String) : Option Int :=
  log.foldl (fun acc e =>
    match e with
    | Metric.happinessSet h v => if h = host then some v else acc
    | _ => acc) none

/-! ## The loops of `Collect` -/

/-- The maps `previousTxBytes` and `previousRxBytes` of `AmpliFiCollector`
(metrics.go 57-61). -/
structure Previous where
  previousTxBytes : String → Option Int
  previousRxBytes : String → Option Int

/-- The maps of a collector made by `NewAmpliFiCollector` (metrics.go 63-69). -/
def Previous.fresh : Previous :=
  { previousTxBytes := fun _ => none, previousRxBytes := fun _ => none }

/-- The assignment `m[key] = v` on a map of previous values. -/
def setPrevious (m : String → Option Int) (key : String) (v : Int) : String → Option Int :=
  fun k => if k = key then some v else m k

/-- The state the loops of `Collect` thread: the two maps, the local variable
`clientCount` and the calls made on the registry so far in this poll. -/
structure Run where
  prev : Previous
  clientCount : Int
  out : List Metric

/-- The calls of the delta computation `if prev, exists := m[description] ...`
(metrics.go 124-131 and 137-144), given the looked-up previous value. -/
def deltaCalls (mk : Int → Metric) (prev : Option Int) (cur : Int) : List Metric :=
  match prev with
  | some p => if cur - p > 0 then [mk (cur - p)] else []
  | none => [mk cur]

/-- The block `if txBytes, hasTx := clientMap["TxBytes"].(float64); hasTx`
(metrics.go 122-133). -/
def stepTx (description : String) (clientMap : GoMap) (r : Run) : Run :=
  match floatField clientMap "TxBytes" with
  | some txBytes =>
    { r with
      prev := { r.prev with
        previousTxBytes := setPrevious r.prev.previousTxBytes description txBytes }
      out := r.out ++
        deltaCalls (Metric.txBytesAdd description) (r.prev.previousTxBytes description) txBytes }
  | none => r

/-- The block `if rxBytes, hasRx := clientMap["RxBytes"].(float64); hasRx`
(metrics.go 135-146). -/
def stepRx (description : String) (clientMap : GoMap) (r : Run) : Run :=
  match floatField clientMap "RxBytes" with
  | some rxBytes =>
    { r with
      prev := { r.prev with
        previousRxBytes := setPrevious r.prev.previousRxBytes description rxBytes }
      out := r.out ++
        deltaCalls (Metric.rxBytesAdd description) (r.prev.previousRxBytes description) rxBytes }
  | none => r

/-- The block setting the signal-quality gauge (metrics.go 148-150). -/
def stepSignal (description : String) (clientMap : GoMap) (r : Run) : Run :=
  match floatField clientMap "SignalQuality" with
  | some signalQuality => { r with out := r.out ++ [Metric.signalQualitySet description signalQuality] }
  | none => r

/-- The block setting the happiness gauge (metrics.go 152-154). -/
def stepHappiness (description : String) (clientMap : GoMap) (r : Run) : Run :=
  match floatField clientMap "HappinessScore" with
  | some happiness => { r with out := r.out ++ [Metric.happinessSet description happiness] }
  | none => r

/-- The body run for one client map (metrics.go 119-154). -/
def collectClientMap (r : Run) (clientMap : GoMap) : Run :=
  let description := getStringValue clientMap "Description" "unknown"
  let r1 := { r with clientCount := r.clientCount + 1 }
  stepHappiness description clientMap
    (stepSignal description clientMap
      (stepRx description clientMap
        (stepTx description clientMap r1)))

/-- The body of `for _, clientData := range networkMap` (metrics.go 117-156). -/
def collectClient (r : Run) (entry : String × JSON) : Run :=
  match asMap entry.2 with
  | some clientMap => collectClientMap r clientMap
  | none => r

/-- The body of `for networkType, networkData := range bandMap`
(metrics.go 111-158). -/
def collectNetwork (r : Run) (entry : String × JSON) : Run :=
  if entry.1 = "Internal network" then r
  else
    match asMap entry.2 with
    | some networkMap => networkMap.foldl collectClient r
    | none => r

/-- The body of `for _, bandData := range apMap` (metrics.go 109-160). -/
def collectBand (r : Run) (entry : String × JSON) : Run :=
  match asMap entry.2 with
  | some bandMap => bandMap.foldl collectNetwork r
  | none => r

/-- The body of `for _, apData := range element` (metrics.go 107-162). -/
def collectAP (r : Run) (entry : String × JSON) : Run :=
  match asMap entry.2 with
  | some apMap => apMap.foldl collectBand r
  | none => r

/-- The body of `for _, deviceData := range element` for element 4
(metrics.go 86-101). -/
def collectDevice (r : Run) (entry : String × JSON) : Run :=
  match asMap entry.2 with
  | some deviceMap =>
    match deviceMap.lookup "eth-0" with
    | some eth0 =>
      match asMap eth0 with
      | some ethData =>
        let r1 : Run :=
          match floatField ethData "tx_bitrate" with
          | some txRate => { r with out := r.out ++ [Metric.globalTxBitrateSet txRate] }
          | none => r
        match floatField ethData "rx_bitrate" with
        | some rxRate => { r1 with out := r1.out ++ [Metric.globalRxBitrateSet rxRate] }
        | none => r1
      | none => r
    | none => r
  | none => r

/-- The body of `for i, element := range response` (metrics.go 83-164). -/
def collectElement (i : Nat) (element : GoMap) (r : Run) : Run :=
  let r1 := if i = 4 then element.foldl collectDevice r else r
  if i = 1 then element.foldl collectAP r1 else r1

/-- The loop `for i, element := range response`, from index `i` on. -/
def collectLoop : Nat → List GoMap → Run → Run
  | _, [], r => r
  | i, element :: rest, r => collectLoop (i + 1) rest (collectElement i element r)

/-- The part of `Collect` after the payload is decoded (metrics.go 82-167):
the new maps and the calls made on the registry. -/
def collectResponse (prev : Previous) (response : List GoMap) : Previous × List Metric :=
  let r := collectLoop 0 response { prev := prev, clientCount := 0, out := [] }
  (r.prev, r.out ++ [Metric.clientCountSet r.clientCount])

/-! ## Regular expressions

The three patterns of `amplifi.go` are sequences of literals and of greedy
repetitions of a character class, with one capture group.  `regexp` returns
the match a backtracking search finds first: the leftmost start, and at each
repetition the longest run that lets the rest of the pattern match. -/

/-- One item of a pattern. -/
inductive Item where
  | lit (s : List Char) : Item
  | one (p : Char → Bool) : Item
  | rep (p : Char → Bool) (atLeast : Nat) (group : Bool) : Item

/-- The first result among `f k, f (k-1), ..., f lo`. -/
def firstDown {α : Type} (f : Nat → Option α) (lo : Nat) : Nat → Option α
  | 0 => if lo = 0 then f 0 else none
  | k + 1 =>
    if k + 1 < lo then none
    else
      match f (k + 1) with
      | some g => some g
      | none => firstDown f lo k

/-- The text of the capture group when the items match at the start of the
input, by backtracking with greedy repetitions. -/
def matchHere : List Item → List Char → Option (List Char)
  | [], _ => some []
  | Item.lit s :: rest, inp =>
    if s.isPrefixOf inp then matchHere rest (inp.drop s.length) else none
  | Item.one p :: rest, inp =>
    match inp with
    | c :: inp1 => if p c then matchHere rest inp1 else none
    | [] => none
  | Item.rep p atLeast group :: rest, inp =>
    firstDown
      (fun k => (matchHere rest (inp.drop k)).map (fun g => if group then inp.take k else g))
      atLeast (inp.takeWhile p).length

/-- The capture group of the leftmost match, as `FindSubmatch` gives it in
`matches[1]`; `none` when `len(matches) < 2`. -/
def findSubmatch (items : List Item) : List Char → Option (List Char)
  | [] => matchHere items []
  | c :: inp =>
    match matchHere items (c :: inp) with
    | some g => some g
    | none => findSubmatch items inp

/-- The single quote. -/
def sq : Char := Char.ofNat 39

/-- The double quote. -/
def dq : Char := Char.ofNat 34

/-- The class `[^>]`. -/
def notGt (c : Char) : Bool := c != '>'

/-- The class `[^']`. -/
def notSq (c : Char) : Bool := c != sq

/-- The class `['"]`. -/
def isQuote (c : Char) : Bool := c == sq || c == dq

/-- The class `[^'"]`. -/
def notQuote (c : Char) : Bool := !(isQuote c)

/-- The class `[0-9a-f]`. -/
def isHex (c : Char) : Bool :=
  ('0'.toNat ≤ c.toNat && c.toNat ≤ '9'.toNat) || ('a'.toNat ≤ c.toNat && c.toNat ≤ 'f'.toNat)

/-- The pattern `<input[^>]+name='token'[^>]+value='([^']+)'` (amplifi.go 57). -/
def tokenRe : List Item :=
  [Item.lit "<input".toList, Item.rep notGt 1 false, Item.lit "name='token'".toList,
   Item.rep notGt 1 false, Item.lit "value='".toList, Item.rep notSq 1 true,
   Item.lit "'".toList]

/-- The fallback pattern
`<input[^>]*name=['"]token['"][^>]*value=['"]([^'"]+)['"]` (amplifi.go 61). -/
def tokenReFallback : List Item :=
  [Item.lit "<input".toList, Item.rep notGt 0 false, Item.lit "name=".toList,
   Item.one isQuote, Item.lit "token".toList, Item.one isQuote, Item.rep notGt 0 false,
   Item.lit "value=".toList, Item.one isQuote, Item.rep notQuote 1 true, Item.one isQuote]

/-- The pattern `var token='([0-9a-f]+)'` (amplifi.go 110). -/
def infoTokenRe : List Item :=
  [Item.lit "var token='".toList, Item.rep isHex 1 true, Item.lit "'".toList]

/-- The CSRF token extraction of `ensureLogin` (amplifi.go 56-67): the first
pattern, then the fallback. -/
def csrfToken (body : List Char) : Option (List Char) :=
  match findSubmatch tokenRe body with
  | some g => some g
  | none => findSubmatch tokenReFallback body

/-! ## The client -/

/-- A response as the code reads it: the status code, what `io.ReadAll`
returns for the body (the bytes and the error, if any) and the cookies the
exchange stores in the jar of the `http.Client`. -/
structure Response (β : Type) where
  statusCode : Nat
  body : β
  readErr : Option String
  cookies : List String

/-- The answers of the router to the requests of one poll cycle; `Except.error`
is the error `Get` or `Post` returns.  The body of the status request is the
JSON value its bytes denote, `none` when they are not JSON text. -/
structure Router where
  getLogin : Except String (Response String)
  postLogin : String → String → Except String (Response String)
  getInfo : Except String (Response String)
  postInfoAsync : String → Except String (Response (Option JSON))

/-- A request the client sends. -/
inductive Request where
  | getLogin : Request
  | postLogin (token password : String) : Request
  | getInfo : Request
  | postInfoAsync (token : String) : Request
  deriving DecidableEq, Repr

/-- The type `AmpliFiClient` (amplifi.go 14-19): `jar` holds the cookies of
the jar for `baseURL`; `sent` is the ghost log of the requests sent. -/
structure AmpliFiClient where
  baseURL : String
  password : String
  jar : List String
  infoToken : String
  sent : List Request

/-- The constructor `NewAmpliFiClient` (amplifi.go 21-35). -/
def NewAmpliFiClient (routerAddr password : String) : AmpliFiClient :=
  { baseURL := routerAddr, password := password, jar := [], infoToken := "", sent := [] }

/-- The method `resetAuth` (amplifi.go 158-163). -/
def resetAuth (c : AmpliFiClient) : AmpliFiClient :=
  { c with infoToken := "", jar := [] }

/-- The method `ensureLogin` (amplifi.go 37-91): the returned error, if any,
and the client afterwards. -/
def ensureLogin (rt : Router) (c : AmpliFiClient) : Except String Unit × AmpliFiClient :=
  if c.jar.length > 0 then (Except.ok (), c)
  else
    let c1 := { c with sent := c.sent ++ [Request.getLogin] }
    match rt.getLogin with
    | Except.error err => (Except.error ("failed to get login page: " ++ err), c1)
    | Except.ok resp =>
      let c2 := { c1 with jar := c1.jar ++ resp.cookies }
      match resp.readErr with
      | some err => (Except.error ("failed to read login page: " ++ err), c2)
      | none =>
        match csrfToken resp.body.toList with
        | none => (Except.error "failed to find CSRF token in login page", c2)
        | some tok =>
          let c3 := { c2 with sent := c2.sent ++ [Request.postLogin (String.mk tok) c.password] }
          match rt.postLogin (String.mk tok) c.password with
          | Except.error err => (Except.error ("failed to login: " ++ err), c3)
          | Except.ok resp2 =>
            let c4 := { c3 with jar := c3.jar ++ resp2.cookies }
            if resp2.statusCode ≠ 200 ∧ resp2.statusCode ≠ 302 then
              (Except.error ("login failed with status " ++ toString resp2.statusCode ++ ": "
                ++ resp2.body), c4)
            else (Except.ok (), c4)

/-- The method `getInfoToken` (amplifi.go 93-118). -/
def getInfoToken (rt : Router) (c : AmpliFiClient) : Except String String × AmpliFiClient :=
  if c.infoToken ≠ "" then (Except.ok c.infoToken, c)
  else
    let c1 := { c with sent := c.sent ++ [Request.getInfo] }
    match rt.getInfo with
    | Except.error err => (Except.error ("failed to get info page: " ++ err), c1)
    | Except.ok resp =>
      let c2 := { c1 with jar := c1.jar ++ resp.cookies }
      match resp.readErr with
      | some err => (Except.error ("failed to read info page: " ++ err), c2)
      | none =>
        match findSubmatch infoTokenRe resp.body.toList with
        | none => (Except.error "failed to find token in info page", c2)
        | some tok => (Except.ok (String.mk tok), { c2 with infoToken := String.mk tok })

/-- The method `GetMetrics` (amplifi.go 120-156). -/
def GetMetrics (rt : Router) (c : AmpliFiClient) :
    Except String (Option JSON) × AmpliFiClient :=
  match ensureLogin rt c with
  | (Except.error err, c1) => (Except.error ("authentication failed: " ++ err), resetAuth c1)
  | (Except.ok _, c1) =>
    match getInfoToken rt c1 with
    | (Except.error err, c2) =>
      (Except.error ("failed to get info token: " ++ err), resetAuth c2)
    | (Except.ok token, c2) =>
      let c3 := { c2 with sent := c2.sent ++ [Request.postInfoAsync token] }
      match rt.postInfoAsync token with
      | Except.error err => (Except.error ("failed to get metrics: " ++ err), resetAuth c3)
      | Except.ok resp =>
        let c4 := { c3 with jar := c3.jar ++ resp.cookies }
        if resp.statusCode ≠ 200 then
          (Except.error ("metrics request failed with status: " ++ toString resp.statusCode),
            resetAuth c4)
        else
          match resp.readErr with
          | some err => (Except.error err, c4)
          | none => (Except.ok resp.body, c4)

/-! ## The collector -/

/-- The type `AmpliFiCollector` (metrics.go 57-61). -/
structure AmpliFiCollector where
  client : AmpliFiClient
  maps : Previous

/-- The constructor `NewAmpliFiCollector` (metrics.go 63-69). -/
def NewAmpliFiCollector (client : AmpliFiClient) : AmpliFiCollector :=
  { client := client, maps := Previous.fresh }

/-- The method `Collect` (metrics.go 71-168): the returned error, if any, the
collector afterwards and the calls made on the registry. -/
def Collect (rt : Router) (col : AmpliFiCollector) :
    Option String × AmpliFiCollector × List Metric :=
  match GetMetrics rt col.client with
  | (Except.error err, c1) =>
    (some ("failed to get metrics: " ++ err), { col with client := c1 }, [])
  | (Except.ok data, c1) =>
    match data.bind unmarshal with
    | none => (some "failed to parse metrics", { col with client := c1 }, [])
    | some response =>
      (none, { client := c1, maps := (collectResponse col.maps response).1 },
        (collectResponse col.maps response).2)

/-! ## Definitions of the statements -/

/-- Specification side.  The client records of element 1, in the order the
loops reach them: the
entries that are maps, under the maps of the network types other than
"Internal network", under the maps of the radio bands, under the maps of the
access points. -/
def clientMaps (element : GoMap) : List GoMap :=
  (element.filterMap (fun e => asMap e.2)).flatMap fun apMap =>
    (apMap.filterMap (fun e => asMap e.2)).flatMap fun bandMap =>
      ((bandMap.filter (fun e => e.1 ≠ "Internal network")).filterMap
        (fun e => asMap e.2)).flatMap fun networkMap =>
          networkMap.filterMap (fun e => asMap e.2)

/-- Specification side.  The calls one client map makes, block by block, from
the maps as they stand when it is reached. -/
def clientCalls (prev : Previous) (m : GoMap) : List Metric :=
  let d := getStringValue m "Description" "unknown"
  (match floatField m "TxBytes" with
   | some v => deltaCalls (Metric.txBytesAdd d) (prev.previousTxBytes d) v
   | none => []) ++
  (match floatField m "RxBytes" with
   | some v => deltaCalls (Metric.rxBytesAdd d) (prev.previousRxBytes d) v
   | none => []) ++
  (match floatField m "SignalQuality" with
   | some v => [Metric.signalQualitySet d v]
   | none => []) ++
  (match floatField m "HappinessScore" with
   | some v => [Metric.happinessSet d v]
   | none => [])

/-- Whether the description of a client map, as `Collect` reads it, is `d`. -/
def hasDescription (d : String) (m : GoMap) : Bool :=
  decide (getStringValue m "Description" "unknown" = d)

/-- The client map `m` is the one client map of the response whose description
is `d`. -/
def onlyClient (d : String) (response : List GoMap) (m : GoMap) : Prop :=
  (clientMaps (response.getD 1 [])).filter (hasDescription d) = [m]

/-- The text of an input element `<input A name='token' value='X'>`, the
attributes `A` standing between `<input` and `name`. -/
def singleQuoted (a x : List Char) : List Char :=
  "<input".toList ++ a ++ "name='token' value='".toList ++ x ++ "'>".toList

/-- The text of an input element `<input A name="token" value="X">`. -/
def doubleQuoted (a x : List Char) : List Char :=
  "<input".toList ++ a ++ "name=".toList ++ [dq] ++ "token".toList ++ [dq] ++
    " value=".toList ++ [dq] ++ x ++ [dq, '>']

/-! ## Concrete payloads, pages and routers -/

/-- The state in which "phone" has the previous values 100 (tx) and 50 (rx). -/
def phonePrior : Run :=
  { prev := { previousTxBytes := setPrevious (fun _ => none) "phone" 100
              previousRxBytes := setPrevious (fun _ => none) "phone" 50 }
    clientCount := 0
    out := [] }

/-- A login page with a single-quoted token input. -/
def loginPage : Response String :=
  { statusCode := 200, body := "<form><input type='hidden' name='token' value='abc'></form>",
    readErr := none, cookies := [] }

/-- An info page with the token in an inline script. -/
def infoPage : Response String :=
  { statusCode := 200, body := "<script>var token='0123abcdef';</script>",
    readErr := none, cookies := [] }

/-- A router that accepts the login with status `loginStatus`, setting a
session cookie, and answers the status request with status 200 and `data`. -/
def routerWith (loginStatus : Nat) (data : Option JSON) : Router :=
  { getLogin := Except.ok loginPage
    postLogin := fun _ _ =>
      Except.ok { statusCode := loginStatus, body := "denied", readErr := none,
                  cookies := ["sid=1"] }
    getInfo := Except.ok infoPage
    postInfoAsync := fun _ =>
      Except.ok { statusCode := 200, body := data, readErr := none, cookies := [] } }

/-- A router that accepts the login and answers the status request with
status 200 and a body whose reading fails. -/
def routerReadError : Router :=
  { getLogin := Except.ok loginPage
    postLogin := fun _ _ =>
      Except.ok { statusCode := 200, body := "", readErr := none, cookies := ["sid=1"] }
    getInfo := Except.ok infoPage
    postInfoAsync := fun _ =>
      Except.ok { statusCode := 200, body := none, readErr := some "unexpected EOF",
                  cookies := [] } }

/-- A newly made collector. -/
def newCollector : AmpliFiCollector :=
  NewAmpliFiCollector (NewAmpliFiClient "http://192.168.119.1" "secret")

/-! ## Lemmas on the steps of a client map -/

theorem txCounter_append (a b : List Metric) (host : String) :
    txCounter (a ++ b) host = txCounter a host + txCounter b host := by
  simp [txCounter]

theorem rxCounter_append (a b : List Metric) (host : String) :
    rxCounter (a ++ b) host = rxCounter a host + rxCounter b host := by
  simp [rxCounter]

theorem stepTx_out (d : String) (m : GoMap) (r : Run) :
    (stepTx d m r).out = r.out ++
      (match floatField m "TxBytes" with
       | some v => deltaCalls (Metric.txBytesAdd d) (r.prev.previousTxBytes d) v
       | none => []) := by
  unfold stepTx; cases floatField m "TxBytes" <;> simp

theorem stepRx_out (d : String) (m : GoMap) (r : Run) :
    (stepRx d m r).out = r.out ++
      (match floatField m "RxBytes" with
       | some v => deltaCalls (Metric.rxBytesAdd d) (r.prev.previousRxBytes d) v
       | none => []) := by
  unfold stepRx; cases floatField m "RxBytes" <;> simp

theorem stepSignal_out (d : String) (m : GoMap) (r : Run) :
    (stepSignal d m r).out = r.out ++
      (match floatField m "SignalQuality" with
       | some v => [Metric.signalQualitySet d v]
       | none => []) := by
  unfold stepSignal; cases floatField m "SignalQuality" <;> simp

theorem stepHappiness_out (d : String) (m : GoMap) (r : Run) :
    (stepHappiness d m r).out = r.out ++
      (match floatField m "HappinessScore" with
       | some v => [Metric.happinessSet d v]
       | none => []) := by
  unfold stepHappiness; cases floatField m "HappinessScore" <;> simp

theorem stepTx_prevTx (d : String) (m : GoMap) (r : Run) :
    (stepTx d m r).prev.previousTxBytes =
      (match floatField m "TxBytes" with
       | some v => setPrevious r.prev.previousTxBytes d v
       | none => r.prev.previousTxBytes) := by
  unfold stepTx; cases floatField m "TxBytes" <;> simp

theorem stepTx_prevRx (d : String) (m : GoMap) (r : Run) :
    (stepTx d m r).prev.previousRxBytes = r.prev.previousRxBytes := by
  unfold stepTx; cases floatField m "TxBytes" <;> simp

theorem stepRx_prevRx (d : String) (m : GoMap) (r : Run) :
    (stepRx d m r).prev.previousRxBytes =
      (match floatField m "RxBytes" with
       | some v => setPrevious r.prev.previousRxBytes d v
       | none => r.prev.previousRxBytes) := by
  unfold stepRx; cases floatField m "RxBytes" <;> simp

theorem stepRx_prevTx (d : String) (m : GoMap) (r : Run) :
    (stepRx d m r).prev.previousTxBytes = r.prev.previousTxBytes := by
  unfold stepRx; cases floatField m "RxBytes" <;> simp

theorem stepSignal_prev (d : String) (m : GoMap) (r : Run) :
    (stepSignal d m r).prev = r.prev := by
  unfold stepSignal; cases floatField m "SignalQuality" <;> simp

theorem stepHappiness_prev (d : String) (m : GoMap) (r : Run) :
    (stepHappiness d m r).prev = r.prev := by
  unfold stepHappiness; cases floatField m "HappinessScore" <;> simp

theorem stepTx_clientCount (d : String) (m : GoMap) (r : Run) :
    (stepTx d m r).clientCount = r.clientCount := by
  unfold stepTx; cases floatField m "TxBytes" <;> simp

theorem stepRx_clientCount (d : String) (m : GoMap) (r : Run) :
    (stepRx d m r).clientCount = r.clientCount := by
  unfold stepRx; cases floatField m "RxBytes" <;> simp

theorem stepSignal_clientCount (d : String) (m : GoMap) (r : Run) :
    (stepSignal d m r).clientCount = r.clientCount := by
  unfold stepSignal; cases floatField m "SignalQuality" <;> simp

theorem stepHappiness_clientCount (d : String) (m : GoMap) (r : Run) :
    (stepHappiness d m r).clientCount = r.clientCount := by
  unfold stepHappiness; cases floatField m "HappinessScore" <;> simp

theorem collectClientMap_out (r : Run) (m : GoMap) :
    (collectClientMap r m).out = r.out ++ clientCalls r.prev m := by
  simp [collectClientMap, clientCalls, stepHappiness_out, stepSignal_out, stepRx_out,
    stepTx_out, stepTx_prevRx, List.append_assoc]

theorem collectClientMap_clientCount (r : Run) (m : GoMap) :
    (collectClientMap r m).clientCount = r.clientCount + 1 := by
  simp [collectClientMap, stepHappiness_clientCount, stepSignal_clientCount,
    stepRx_clientCount, stepTx_clientCount]

theorem collectClientMap_prevTx (r : Run) (m : GoMap) :
    (collectClientMap r m).prev.previousTxBytes =
      (match floatField m "TxBytes" with
       | some v => setPrevious r.prev.previousTxBytes (getStringValue m "Description" "unknown") v
       | none => r.prev.previousTxBytes) := by
  simp [collectClientMap, stepHappiness_prev, stepSignal_prev, stepRx_prevTx, stepTx_prevTx]

theorem collectClientMap_prevRx (r : Run) (m : GoMap) :
    (collectClientMap r m).prev.previousRxBytes =
      (match floatField m "RxBytes" with
       | some v => setPrevious r.prev.previousRxBytes (getStringValue m "Description" "unknown") v
       | none => r.prev.previousRxBytes) := by
  simp [collectClientMap, stepHappiness_prev, stepSignal_prev, stepRx_prevRx, stepTx_prevRx]

theorem txCounter_deltaCalls_rx (d : String) (p : Option Int) (v : Int) (host : String) :
    txCounter (deltaCalls (Metric.rxBytesAdd d) p v) host = 0 := by
  cases p <;> simp [deltaCalls, txCounter, Metric.txAmount]
  split <;> simp [Metric.txAmount]

theorem rxCounter_deltaCalls_tx (d : String) (p : Option Int) (v : Int) (host : String) :
    rxCounter (deltaCalls (Metric.txBytesAdd d) p v) host = 0 := by
  cases p <;> simp [deltaCalls, rxCounter, Metric.rxAmount]
  split <;> simp [Metric.rxAmount]

/-- The amount one client map adds to the tx counter of `host`. -/
theorem txCounter_clientCalls (prev : Previous) (m : GoMap) (host : String) :
    txCounter (clientCalls prev m) host =
      (match floatField m "TxBytes" with
       | some v => txCounter (deltaCalls
           (Metric.txBytesAdd (getStringValue m "Description" "unknown"))
           (prev.previousTxBytes (getStringValue m "Description" "unknown")) v) host
       | none => 0) := by
  simp only [clientCalls, txCounter_append]
  cases floatField m "TxBytes" <;> cases floatField m "RxBytes" <;>
    cases floatField m "SignalQuality" <;> cases floatField m "HappinessScore" <;>
    simp [txCounter_deltaCalls_rx] <;> simp [txCounter, Metric.txAmount]

/-- The amount one client map adds to the rx counter of `host`. -/
theorem rxCounter_clientCalls (prev : Previous) (m : GoMap) (host : String) :
    rxCounter (clientCalls prev m) host =
      (match floatField m "RxBytes" with
       | some v => rxCounter (deltaCalls
           (Metric.rxBytesAdd (getStringValue m "Description" "unknown"))
           (prev.previousRxBytes (getStringValue m "Description" "unknown")) v) host
       | none => 0) := by
  simp only [clientCalls, rxCounter_append]
  cases floatField m "TxBytes" <;> cases floatField m "RxBytes" <;>
    cases floatField m "SignalQuality" <;> cases floatField m "HappinessScore" <;>
    simp [rxCounter_deltaCalls_tx] <;> simp [rxCounter, Metric.rxAmount]

/-! ## The loops of `Collect` -/

theorem foldl_collectClient (networkMap : GoMap) (r : Run) :
    networkMap.foldl collectClient r =
      (networkMap.filterMap (fun e => asMap e.2)).foldl collectClientMap r := by
  induction networkMap generalizing r with
  | nil => rfl
  | cons e rest ih =>
    rw [List.foldl_cons, ih]
    cases h : asMap e.2 <;> simp [collectClient, List.filterMap_cons, h]

theorem foldl_collectNetwork (bandMap : GoMap) (r : Run) :
    bandMap.foldl collectNetwork r =
      (((bandMap.filter (fun e => e.1 ≠ "Internal network")).filterMap
        (fun e => asMap e.2)).flatMap fun networkMap =>
          networkMap.filterMap (fun e => asMap e.2)).foldl collectClientMap r := by
  induction bandMap generalizing r with
  | nil => rfl
  | cons e rest ih =>
    rw [List.foldl_cons, ih]
    by_cases hn : e.1 = "Internal network"
    · simp [collectNetwork, hn, List.filter_cons]
    · cases h : asMap e.2 <;>
        simp [collectNetwork, hn, List.filter_cons, List.filterMap_cons, h,
          List.flatMap_cons, List.foldl_append, foldl_collectClient]

theorem foldl_collectBand (apMap : GoMap) (r : Run) :
    apMap.foldl collectBand r =
      ((apMap.filterMap (fun e => asMap e.2)).flatMap fun bandMap =>
        ((bandMap.filter (fun e => e.1 ≠ "Internal network")).filterMap
          (fun e => asMap e.2)).flatMap fun networkMap =>
            networkMap.filterMap (fun e => asMap e.2)).foldl collectClientMap r := by
  induction apMap generalizing r with
  | nil => rfl
  | cons e rest ih =>
    rw [List.foldl_cons, ih]
    cases h : asMap e.2 <;>
      simp [collectBand, List.filterMap_cons, h, List.flatMap_cons, List.foldl_append,
        foldl_collectNetwork]

/-- The four nested loops over element 1 run the client-map body over
`clientMaps`. -/
theorem foldl_collectAP (element : GoMap) (r : Run) :
    element.foldl collectAP r = (clientMaps element).foldl collectClientMap r := by
  unfold clientMaps
  induction element generalizing r with
  | nil => rfl
  | cons e rest ih =>
    rw [List.foldl_cons, ih]
    cases h : asMap e.2 <;>
      simp [collectAP, List.filterMap_cons, h, List.flatMap_cons, List.foldl_append,
        foldl_collectBand]

theorem collectLoop_of_ge (i : Nat) (hi : 5 ≤ i) (rest : List GoMap) (r : Run) :
    collectLoop i rest r = r := by
  induction rest generalizing i r with
  | nil => rfl
  | cons e rest ih =>
    have h4 : i ≠ 4 := by omega
    have h1 : i ≠ 1 := by omega
    simp only [collectLoop, collectElement, if_neg h4, if_neg h1]
    exact ih (i + 1) (by omega) r

/-- The loop over the response only runs the bodies of elements 1 and 4, in
that order. -/
theorem collectLoop_eq (response : List GoMap) (r : Run) :
    collectLoop 0 response r =
      (response.getD 4 []).foldl collectDevice ((response.getD 1 []).foldl collectAP r) := by
  rcases response with _ | ⟨a, _ | ⟨b, _ | ⟨c, _ | ⟨d, _ | ⟨e, rest⟩⟩⟩⟩⟩ <;>
    simp [collectLoop, collectElement, collectLoop_of_ge]

theorem collectDevice_prev (r : Run) (e : String × JSON) :
    (collectDevice r e).prev = r.prev := by
  unfold collectDevice
  repeat' split
  all_goals rfl

theorem collectDevice_clientCount (r : Run) (e : String × JSON) :
    (collectDevice r e).clientCount = r.clientCount := by
  unfold collectDevice
  repeat' split
  all_goals rfl

theorem foldl_collectDevice_prev (element : GoMap) (r : Run) :
    (element.foldl collectDevice r).prev = r.prev := by
  induction element generalizing r with
  | nil => rfl
  | cons e rest ih => rw [List.foldl_cons, ih, collectDevice_prev]

theorem foldl_collectDevice_clientCount (element : GoMap) (r : Run) :
    (element.foldl collectDevice r).clientCount = r.clientCount := by
  induction element generalizing r with
  | nil => rfl
  | cons e rest ih => rw [List.foldl_cons, ih, collectDevice_clientCount]

theorem foldl_collectClientMap_clientCount (ms : List GoMap) (r : Run) :
    (ms.foldl collectClientMap r).clientCount = r.clientCount + ms.length := by
  induction ms generalizing r with
  | nil => simp
  | cons m rest ih =>
    rw [List.foldl_cons, ih, collectClientMap_clientCount]
    simp; omega
theorem collectResponse_eq (prev : Previous) (response : List GoMap) :
    collectResponse prev response =
      (((clientMaps (response.getD 1 [])).foldl collectClientMap
          { prev := prev, clientCount := 0, out := [] }).prev,
       ((response.getD 4 []).foldl collectDevice
          ((clientMaps (response.getD 1 [])).foldl collectClientMap
            { prev := prev, clientCount := 0, out := [] })).out ++
        [Metric.clientCountSet (clientMaps (response.getD 1 [])).length]) := by
  simp [collectResponse, collectLoop_eq, foldl_collectAP, foldl_collectDevice_prev,
    foldl_collectDevice_clientCount, foldl_collectClientMap_clientCount]

/-- A call made by the loop over element 4 is a call setting a global gauge. -/
theorem mem_collectDevice (r : Run) (entry : String × JSON) (e : Metric)
    (he : e ∈ (collectDevice r entry).out) :
    e ∈ r.out ∨ (∃ v, e = Metric.globalTxBitrateSet v) ∨ (∃ v, e = Metric.globalRxBitrateSet v) := by
  unfold collectDevice at he
  split at he
  · split at he
    · split at he
      · split at he <;> split at he <;> simp at he <;> aesop
      · exact Or.inl he
    · exact Or.inl he
  · exact Or.inl he

theorem mem_foldl_collectDevice (element : GoMap) (r : Run) (e : Metric)
    (he : e ∈ (element.foldl collectDevice r).out) :
    e ∈ r.out ∨ (∃ v, e = Metric.globalTxBitrateSet v) ∨ (∃ v, e = Metric.globalRxBitrateSet v) := by
  induction element generalizing r with
  | nil => exact Or.inl he
  | cons x rest ih =>
    rw [List.foldl_cons] at he
    rcases ih _ he with h | h
    · exact mem_collectDevice r x e h
    · exact Or.inr h

theorem mem_foldl_collectClientMap (ms : List GoMap) (r : Run) (e : Metric)
    (he : e ∈ (ms.foldl collectClientMap r).out) :
    e ∈ r.out ∨ ∃ m ∈ ms, ∃ p, e ∈ clientCalls p m := by
  induction ms generalizing r with
  | nil => exact Or.inl he
  | cons m rest ih =>
    rw [List.foldl_cons] at he
    rcases ih _ he with h | ⟨m1, hm1, p, hp⟩
    · rw [collectClientMap_out, List.mem_append] at h
      rcases h with h | h
      · exact Or.inl h
      · exact Or.inr ⟨m, List.mem_cons_self _ _, r.prev, h⟩
    · exact Or.inr ⟨m1, List.mem_cons_of_mem _ hm1, p, hp⟩

/-- Every call of a poll comes from a client map of element 1, or sets a
global gauge, or is the final call on the client-count gauge. -/
theorem mem_collectResponse (prev : Previous) (response : List GoMap) (e : Metric)
    (he : e ∈ (collectResponse prev response).2) :
    (∃ m ∈ clientMaps (response.getD 1 []), ∃ p, e ∈ clientCalls p m) ∨
    (∃ v, e = Metric.globalTxBitrateSet v) ∨ (∃ v, e = Metric.globalRxBitrateSet v) ∨
    e = Metric.clientCountSet (clientMaps (response.getD 1 [])).length := by
  rw [collectResponse_eq] at he
  simp only [List.mem_append, List.mem_singleton] at he
  rcases he with he | he
  · rcases mem_foldl_collectDevice _ _ _ he with h | h | h
    · rcases mem_foldl_collectClientMap _ _ _ h with h | h
      · simp at h
      · exact Or.inl h
    · exact Or.inr (Or.inl h)
    · exact Or.inr (Or.inr (Or.inl h))
  · exact Or.inr (Or.inr (Or.inr he))

theorem floatField_of_lookup_none (m : GoMap) (key : String) (h : m.lookup key = none) :
    floatField m key = none := by
  simp [floatField, h]

theorem signalGauge_append (a b : List Metric) (host : String)
    (hb : ∀ e ∈ b, ∀ h v, e ≠ Metric.signalQualitySet h v) :
    signalGauge (a ++ b) host = signalGauge a host := by
  unfold signalGauge
  rw [List.foldl_append]
  generalize List.foldl _ none a = acc
  induction b generalizing acc with
  | nil => rfl
  | cons e b ih =>
    have hb' : ∀ e' ∈ b, ∀ h v, e' ≠ Metric.signalQualitySet h v :=
      fun e' he' => hb e' (List.mem_cons_of_mem _ he')
    have he := hb e (List.mem_cons_self _ _)
    rw [List.foldl_cons]
    cases e with
    | signalQualitySet h v => exact absurd rfl (he h v)
    | _ => exact ih hb' acc

theorem happinessGauge_append (a b : List Metric) (host : String)
    (hb : ∀ e ∈ b, ∀ h v, e ≠ Metric.happinessSet h v) :
    happinessGauge (a ++ b) host = happinessGauge a host := by
  unfold happinessGauge
  rw [List.foldl_append]
  generalize List.foldl _ none a = acc
  induction b generalizing acc with
  | nil => rfl
  | cons e b ih =>
    have hb' : ∀ e' ∈ b, ∀ h v, e' ≠ Metric.happinessSet h v :=
      fun e' he' => hb e' (List.mem_cons_of_mem _ he')
    have he := hb e (List.mem_cons_self _ _)
    rw [List.foldl_cons]
    cases e with
    | happinessSet h v => exact absurd rfl (he h v)
    | _ => exact ih hb' acc

theorem mem_deltaCalls (mk : Int → Metric) (p : Option Int) (v : Int) (e : Metric)
    (he : e ∈ deltaCalls mk p v) : ∃ a, e = mk a := by
  cases p with
  | none => simp [deltaCalls] at he; exact ⟨v, he⟩
  | some p =>
    simp only [deltaCalls] at he
    split at he
    · simp at he; exact ⟨_, he⟩
    · simp at he

/-- Every call of a client map is a call of one of its four blocks. -/
theorem mem_clientCalls (prev : Previous) (m : GoMap) (e : Metric)
    (he : e ∈ clientCalls prev m) :
    (∃ h a, floatField m "TxBytes" ≠ none ∧ e = Metric.txBytesAdd h a) ∨
    (∃ h a, floatField m "RxBytes" ≠ none ∧ e = Metric.rxBytesAdd h a) ∨
    (∃ h a, floatField m "SignalQuality" ≠ none ∧ e = Metric.signalQualitySet h a) ∨
    (∃ h a, floatField m "HappinessScore" ≠ none ∧ e = Metric.happinessSet h a) := by
  simp only [clientCalls, List.mem_append] at he
  rcases he with ((he | he) | he) | he
  · left
    cases hf : floatField m "TxBytes" with
    | none => simp [hf] at he
    | some v =>
      rw [hf] at he
      obtain ⟨a, ha⟩ := mem_deltaCalls _ _ _ _ he
      exact ⟨_, a, by simp, ha⟩
  · right; left
    cases hf : floatField m "RxBytes" with
    | none => simp [hf] at he
    | some v =>
      rw [hf] at he
      obtain ⟨a, ha⟩ := mem_deltaCalls _ _ _ _ he
      exact ⟨_, a, by simp, ha⟩
  · right; right; left
    cases hf : floatField m "SignalQuality" with
    | none => simp [hf] at he
    | some v =>
      rw [hf] at he
      simp at he
      exact ⟨_, v, by simp, he⟩
  · right; right; right
    cases hf : floatField m "HappinessScore" with
    | none => simp [hf] at he
    | some v =>
      rw [hf] at he
      simp at he
      exact ⟨_, v, by simp, he⟩

/-- An error of `GetMetrics` comes with `resetAuth` applied, except the error
of reading the body of a status response with status 200. -/
theorem GetMetrics_error (rt : Router) (c : AmpliFiClient) (err : String)
    (h : (GetMetrics rt c).1 = Except.error err) :
    ((GetMetrics rt c).2.infoToken = "" ∧ (GetMetrics rt c).2.jar = []) ∨
    ∃ token resp, rt.postInfoAsync token = Except.ok resp ∧ resp.statusCode = 200 ∧
      resp.readErr = some err := by
  unfold GetMetrics at h ⊢
  split at h
  · left; simp [resetAuth]
  · split at h
    · left; simp [resetAuth]
    · rename_i token c2 _
      split at h
      · left; simp [resetAuth]
      · rename_i resp hresp
        split at h
        · left; simp_all [resetAuth]
        · rename_i hstatus
          split at h
          · rename_i e he
            right
            refine ⟨token, resp, hresp, ?_, ?_⟩
            · simpa using hstatus
            · simp at h; rw [he, h]
          · simp at h

/-! ## Lemmas on the matcher -/

theorem firstDown_eq {α : Type} (f : Nat → Option α) (lo k0 : Nat) (g : α) (n : Nat)
    (hlo : lo ≤ k0) (hle : k0 ≤ n) (hk0 : f k0 = some g)
    (hlater : ∀ k, k0 < k → k ≤ n → f k = none) : firstDown f lo n = some g := by
  induction n with
  | zero =>
    have h0 : k0 = 0 := by omega
    have hl : lo = 0 := by omega
    subst h0
    simp [firstDown, hl, hk0]
  | succ n ih =>
    have hnlt : ¬ (n + 1 < lo) := by omega
    by_cases hk : k0 = n + 1
    · subst hk
      simp [firstDown, hnlt, hk0]
    · have hn := hlater (n + 1) (by omega) (le_refl _)
      simp only [firstDown, if_neg hnlt, hn]
      exact ih (by omega) (fun k h1 h2 => hlater k h1 (by omega))

/-- A greedy repetition takes the longest run after which the rest of the
pattern matches. -/
theorem matchHere_rep (p : Char → Bool) (lo : Nat) (group : Bool) (rest : List Item)
    (inp : List Char) (k0 : Nat) (g : List Char)
    (hlo : lo ≤ k0) (hle : k0 ≤ (inp.takeWhile p).length)
    (hk0 : matchHere rest (inp.drop k0) = some g)
    (hlater : ∀ k, k0 < k → k ≤ (inp.takeWhile p).length →
      matchHere rest (inp.drop k) = none) :
    matchHere (Item.rep p lo group :: rest) inp = some (if group then inp.take k0 else g) := by
  rw [matchHere]
  apply firstDown_eq _ lo k0 _ _ hlo hle
  · simp [hk0]
  · intro k h1 h2
    simp [hlater k h1 h2]

theorem matchHere_lit (s : List Char) (rest : List Item) (tail : List Char) :
    matchHere (Item.lit s :: rest) (s ++ tail) = matchHere rest tail := by
  rw [matchHere]
  have : s.isPrefixOf (s ++ tail) = true := by
    rw [List.isPrefixOf_iff_prefix]; exact List.prefix_append _ _
  simp [this]

theorem matchHere_lit_none (s : List Char) (rest : List Item) (inp : List Char)
    (h : ¬ s <+: inp) : matchHere (Item.lit s :: rest) inp = none := by
  rw [matchHere]
  have : s.isPrefixOf inp = false := by
    rw [← Bool.not_eq_true, List.isPrefixOf_iff_prefix]; exact h
  simp [this]

/-- The leftmost match is the match at the first position where the pattern
matches. -/
theorem findSubmatch_eq (items : List Item) (pre rest : List Char) (g : List Char)
    (hpre : ∀ i, i < pre.length → matchHere items ((pre ++ rest).drop i) = none)
    (hrest : matchHere items rest = some g) : findSubmatch items (pre ++ rest) = some g := by
  induction pre with
  | nil =>
    cases rest with
    | nil => simpa [findSubmatch] using hrest
    | cons c rest => simp [findSubmatch, hrest]
  | cons c pre ih =>
    have h0 := hpre 0 (by simp)
    simp only [List.drop_zero] at h0
    simp only [List.cons_append] at h0 ⊢
    simp only [findSubmatch, h0]
    apply ih
    intro i hi
    have := hpre (i + 1) (by simpa using hi)
    simpa using this

theorem length_takeWhile_append_ge (p : Char → Bool) (a rest : List Char)
    (ha : ∀ c ∈ a, p c = true) : a.length ≤ ((a ++ rest).takeWhile p).length := by
  rw [List.takeWhile_append_of_pos ha]
  simp

theorem length_takeWhile_le (p : Char → Bool) (w : List Char) (c : Char) (rest : List Char)
    (hc : p c = false) : ((w ++ c :: rest).takeWhile p).length ≤ w.length := by
  induction w with
  | nil => simp [List.takeWhile_cons, hc]
  | cons x w ih =>
    simp only [List.cons_append, List.takeWhile_cons]
    split
    · simpa using ih
    · simp

theorem length_takeWhile_eq (p : Char → Bool) (w : List Char) (c : Char) (rest : List Char)
    (hw : ∀ x ∈ w, p x = true) (hc : p c = false) :
    ((w ++ c :: rest).takeWhile p).length = w.length := by
  apply le_antisymm (length_takeWhile_le p w c rest hc)
  exact length_takeWhile_append_ge p w _ hw

theorem getElem?_of_prefix (l s : List Char) (h : l <+: s) (i : Nat) (hi : i < l.length) :
    s[i]? = l[i]? := by
  obtain ⟨t, rfl⟩ := h
  exact List.getElem?_append_left hi
/-! ## The single-quote pattern on a single-quoted element -/

theorem getElem?_append_quote (y : List Char) (q : Char) (post : List Char) :
    (y ++ q :: '>' :: post)[y.length]? = some q ∧
    (y ++ q :: '>' :: post)[y.length + 1]? = some '>' := by
  constructor
  · rw [List.getElem?_append_right (le_refl _)]; simp
  · rw [List.getElem?_append_right (by omega)]; simp

theorem getElem?_append_mem (y rest : List Char) (i : Nat) (hi : i < y.length) :
    ∃ c ∈ y, (y ++ rest)[i]? = some c := by
  refine ⟨y[i], List.getElem_mem hi, ?_⟩
  rw [List.getElem?_append_left hi, List.getElem?_eq_getElem hi]

/-- The literal `name='token'` is not at the start of a quote-free text
followed by a single quote and `>`. -/
theorem name_not_prefix (y post : List Char) (hy : ∀ c ∈ y, c ≠ sq) :
    ¬ "name='token'".toList <+: y ++ sq :: '>' :: post := by
  intro h
  have key := getElem?_of_prefix _ _ h
  have hq := getElem?_append_quote y sq post
  by_cases h6 : 6 ≤ y.length
  · obtain ⟨c, hc, hget⟩ := getElem?_append_mem y (sq :: '>' :: post) 5 (by omega)
    have := key 5 (by decide)
    rw [hget] at this
    have h5 : ("name='token'".toList)[5]? = some sq := by decide
    rw [h5] at this
    exact hy c hc (Option.some.inj this)
  · by_cases h5 : y.length = 5
    · have := key 6 (by decide)
      rw [h5] at hq
      rw [hq.2] at this
      revert this; decide
    · have hlt : y.length < 5 := by omega
      have := key y.length (by
        have : ("name='token'".toList).length = 12 := by decide
        omega)
      rw [hq.1] at this
      revert this
      generalize y.length = n at hlt
      interval_cases n <;> decide

/-- The literal `value='` is at the start of a quote-free text followed by a
single quote and `>` only when that text is `value=`. -/
theorem value_not_prefix (y post : List Char) (hy : ∀ c ∈ y, c ≠ sq)
    (hne : y ≠ "value=".toList) :
    ¬ "value='".toList <+: y ++ sq :: '>' :: post := by
  intro h
  have key := getElem?_of_prefix _ _ h
  have hq := getElem?_append_quote y sq post
  by_cases h7 : 7 ≤ y.length
  · obtain ⟨c, hc, hget⟩ := getElem?_append_mem y (sq :: '>' :: post) 6 (by omega)
    have := key 6 (by decide)
    rw [hget] at this
    have h6 : ("value='".toList)[6]? = some sq := by decide
    rw [h6] at this
    exact hy c hc (Option.some.inj this)
  · by_cases h6 : y.length = 6
    · apply hne
      obtain ⟨t, ht⟩ := h
      have h1 : (y ++ sq :: '>' :: post).take 6 = ("value='".toList ++ t).take 6 := by rw [ht]
      rw [List.take_append_of_le_length (by omega), List.take_of_length_le (by omega)] at h1
      rw [h1]
      rfl
    · have hlt : y.length < 6 := by omega
      have := key y.length (by
        have : ("value='".toList).length = 7 := by decide
        omega)
      rw [hq.1] at this
      revert this
      generalize y.length = n at hlt
      interval_cases n <;> decide
/-- After a repetition of `[^>]` has taken the text `a`, no longer run lets
the rest of the pattern match, when the rest matches at no later position of
the tag. -/
theorem later_none (items : List Item) (a h x post : List Char) (q : Char)
    (hh : ∀ j, 1 ≤ j → j < h.length →
      matchHere items ((h ++ (x ++ q :: '>' :: post)).drop j) = none)
    (hy : ∀ y, y <:+ x → matchHere items (y ++ q :: '>' :: post) = none)
    (hgt : matchHere items ('>' :: post) = none)
    (k : Nat) (h1 : a.length < k)
    (h2 : k ≤ ((a ++ (h ++ (x ++ q :: '>' :: post))).takeWhile notGt).length) :
    matchHere items ((a ++ (h ++ (x ++ q :: '>' :: post))).drop k) = none := by
  have hbound : ((a ++ (h ++ (x ++ q :: '>' :: post))).takeWhile notGt).length
      ≤ (a ++ (h ++ (x ++ [q]))).length := by
    have e : a ++ (h ++ (x ++ q :: '>' :: post)) = (a ++ (h ++ (x ++ [q]))) ++ '>' :: post := by
      simp
    rw [e]
    exact length_takeWhile_le notGt _ '>' post (by decide)
  simp only [List.length_append, List.length_singleton] at hbound
  rw [List.drop_append_eq_append_drop, List.drop_eq_nil_of_le (le_of_lt h1), List.nil_append]
  by_cases hj : k - a.length < h.length
  · exact hh _ (by omega) hj
  · rw [List.drop_append_eq_append_drop, List.drop_eq_nil_of_le (by omega), List.nil_append]
    by_cases hm : k - a.length - h.length ≤ x.length
    · rw [List.drop_append_eq_append_drop]
      have : k - a.length - h.length - x.length = 0 := by omega
      rw [this, List.drop_zero]
      exact hy _ (List.drop_suffix _ _)
    · have hm1 : k - a.length - h.length = x.length + 1 := by omega
      rw [hm1, List.drop_append_eq_append_drop, List.drop_eq_nil_of_le (by omega)]
      simpa using hgt

theorem mem_of_suffix {y x : List Char} (h : y <:+ x) (c : Char) (hc : c ∈ y) : c ∈ x := by
  obtain ⟨t, rfl⟩ := h
  exact List.mem_append_right _ hc

/-- The group `([^']+)'` on a quote-free text followed by a single quote. -/
theorem matchHere_group_single (x post : List Char) (hx : x ≠ []) (hq : ∀ c ∈ x, c ≠ sq) :
    matchHere [Item.rep notSq 1 true, Item.lit "'".toList] (x ++ sq :: '>' :: post)
      = some x := by
  have hlen : ((x ++ sq :: '>' :: post).takeWhile notSq).length = x.length :=
    length_takeWhile_eq notSq x sq _ (fun c hc => by simpa [notSq] using hq c hc)
      (by simp [notSq])
  have := matchHere_rep notSq 1 true [Item.lit "'".toList] (x ++ sq :: '>' :: post) x.length []
    (by
      cases x with
      | nil => exact absurd rfl hx
      | cons c x => simp)
    (by omega)
    (by
      rw [List.drop_left]
      exact matchHere_lit [sq] [] ('>' :: post))
    (by intro k h1 h2; omega)
  simpa using this

/-- The tail `[^>]+value='([^']+)'` of the single-quote pattern after
`name='token'`. -/
theorem matchHere_value_single (x post : List Char) (hx : x ≠ [])
    (hq : ∀ c ∈ x, c ≠ sq) (hsuf : ¬ "value=".toList <:+ x) :
    matchHere [Item.rep notGt 1 false, Item.lit "value='".toList, Item.rep notSq 1 true,
        Item.lit "'".toList] (" value='".toList ++ (x ++ sq :: '>' :: post)) = some x := by
  have e : " value='".toList ++ (x ++ sq :: '>' :: post)
      = [' '] ++ ("value='".toList ++ (x ++ sq :: '>' :: post)) := rfl
  rw [e]
  have := matchHere_rep notGt 1 false
    [Item.lit "value='".toList, Item.rep notSq 1 true, Item.lit "'".toList]
    ([' '] ++ ("value='".toList ++ (x ++ sq :: '>' :: post))) 1 x (le_refl _)
    (length_takeWhile_append_ge notGt [' '] _ (by decide))
    (by
      rw [show (1 : Nat) = [' '].length from rfl, List.drop_left, matchHere_lit]
      exact matchHere_group_single x post hx hq)
    (by
      intro k h1 h2
      apply later_none _ [' '] "value='".toList x post sq _ _ _ k h1 h2
      · intro j hj1 hj2
        have hj3 : j < 7 := hj2
        interval_cases j <;> simp [matchHere, List.isPrefixOf]
      · intro y hy
        apply matchHere_lit_none
        apply value_not_prefix y post (fun c hc => hq c (mem_of_suffix hy c hc))
        intro hyv
        exact hsuf (hyv ▸ hy)
      · simp [matchHere, List.isPrefixOf])
  simpa using this

/-- The single-quote pattern at the start of a single-quoted element. -/
theorem matchHere_tokenRe (a x post : List Char) (ha : a ≠ []) (hgt : ∀ c ∈ a, c ≠ '>')
    (hx : x ≠ []) (hq : ∀ c ∈ x, c ≠ sq) (hsuf : ¬ "value=".toList <:+ x) :
    matchHere tokenRe (singleQuoted a x ++ post) = some x := by
  have e : singleQuoted a x ++ post = "<input".toList ++
      (a ++ ("name='token' value='".toList ++ (x ++ sq :: '>' :: post))) := by
    simp [singleQuoted, sq]
  rw [e, tokenRe, matchHere_lit]
  have := matchHere_rep notGt 1 false
    [Item.lit "name='token'".toList, Item.rep notGt 1 false, Item.lit "value='".toList,
      Item.rep notSq 1 true, Item.lit "'".toList]
    (a ++ ("name='token' value='".toList ++ (x ++ sq :: '>' :: post))) a.length x
    (by
      cases a with
      | nil => exact absurd rfl ha
      | cons c a => simp)
    (length_takeWhile_append_ge notGt a _ (fun c hc => by simpa [notGt] using hgt c hc))
    (by
      rw [List.drop_left]
      have e2 : "name='token' value='".toList ++ (x ++ sq :: '>' :: post)
          = "name='token'".toList ++ (" value='".toList ++ (x ++ sq :: '>' :: post)) := rfl
      rw [e2, matchHere_lit]
      exact matchHere_value_single x post hx hq hsuf)
    (by
      intro k h1 h2
      apply later_none _ a "name='token' value='".toList x post sq _ _ _ k h1 h2
      · intro j hj1 hj2
        have hj3 : j < 20 := hj2
        interval_cases j <;> simp [matchHere, List.isPrefixOf]
      · intro y hy
        apply matchHere_lit_none
        exact name_not_prefix y post (fun c hc => hq c (mem_of_suffix hy c hc))
      · simp [matchHere, List.isPrefixOf])
  simpa using this
/-! ## The fallback pattern on a double-quoted element -/

/-- A quote-free literal followed by the class `['"]` does not match at the
start of a quote-free text `y` followed by a double quote and `>`, unless `y`
is that literal and the rest of the pattern matches at `>`. -/
theorem lit_quote_none (l : List Char) (rest : List Item) (y post : List Char)
    (hy : ∀ c ∈ y, isQuote c = false) (hl : ∀ c ∈ l, isQuote c = false)
    (hcase : y = l → matchHere rest ('>' :: post) = none) :
    matchHere (Item.lit l :: Item.one isQuote :: rest) (y ++ dq :: '>' :: post) = none := by
  by_cases hp : l <+: y ++ dq :: '>' :: post
  · by_cases hlen : y.length < l.length
    · exfalso
      have key := getElem?_of_prefix _ _ hp y.length hlen
      rw [(getElem?_append_quote y dq post).1] at key
      have hmem : dq ∈ l := List.getElem?_mem key.symm
      have := hl dq hmem
      revert this; decide
    · have hly : l <+: y :=
        List.prefix_of_prefix_length_le hp (List.prefix_append _ _) (by omega)
      obtain ⟨t, rfl⟩ := hly
      rw [List.append_assoc, matchHere_lit]
      cases t with
      | nil =>
        have := hcase (by simp)
        simp only [List.nil_append, matchHere]
        rw [this]
        simp [isQuote]
      | cons c t =>
        have hc : isQuote c = false := hy c (by simp)
        simp [matchHere, hc]
  · exact matchHere_lit_none _ _ _ hp

/-- The group `([^'"]+)['"]` on a quote-free text followed by a double quote. -/
theorem matchHere_group_double (x post : List Char) (hx : x ≠ [])
    (hq : ∀ c ∈ x, isQuote c = false) :
    matchHere [Item.rep notQuote 1 true, Item.one isQuote] (x ++ dq :: '>' :: post)
      = some x := by
  have hlen : ((x ++ dq :: '>' :: post).takeWhile notQuote).length = x.length :=
    length_takeWhile_eq notQuote x dq _ (fun c hc => by simp [notQuote, hq c hc])
      (by decide)
  have := matchHere_rep notQuote 1 true [Item.one isQuote] (x ++ dq :: '>' :: post) x.length []
    (by
      cases x with
      | nil => exact absurd rfl hx
      | cons c x => simp)
    (by omega)
    (by
      rw [List.drop_left]
      have : isQuote dq = true := by decide
      simp [matchHere, this])
    (by intro k h1 h2; omega)
  simpa using this

/-- The tail `[^>]*value=['"]([^'"]+)['"]` of the fallback pattern after
`name="token"`. -/
theorem matchHere_value_double (x post : List Char) (hx : x ≠ [])
    (hq : ∀ c ∈ x, isQuote c = false) (hsuf : ¬ "value=".toList <:+ x) :
    matchHere [Item.rep notGt 0 false, Item.lit "value=".toList, Item.one isQuote,
        Item.rep notQuote 1 true, Item.one isQuote]
      ([' '] ++ (("value=".toList ++ [dq]) ++ (x ++ dq :: '>' :: post))) = some x := by
  have hdq : isQuote dq = true := by decide
  have := matchHere_rep notGt 0 false
    [Item.lit "value=".toList, Item.one isQuote, Item.rep notQuote 1 true, Item.one isQuote]
    ([' '] ++ (("value=".toList ++ [dq]) ++ (x ++ dq :: '>' :: post))) 1 x (by omega)
    (length_takeWhile_append_ge notGt [' '] _ (by decide))
    (by
      rw [show (1 : Nat) = [' '].length from rfl, List.drop_left, List.append_assoc,
        matchHere_lit]
      simp only [List.singleton_append, matchHere, hdq, if_true]
      have := matchHere_group_double x post hx hq
      simpa [matchHere] using this)
    (by
      intro k h1 h2
      apply later_none _ [' '] ("value=".toList ++ [dq]) x post dq _ _ _ k h1 h2
      · intro j hj1 hj2
        have hj3 : j < 7 := hj2
        interval_cases j <;> simp [matchHere, List.isPrefixOf, dq]
      · intro y hy
        apply lit_quote_none _ _ y post (fun c hc => hq c (mem_of_suffix hy c hc))
          (by decide)
        intro hyv
        exact absurd (hyv ▸ hy) hsuf
      · simp [matchHere, List.isPrefixOf])
  simpa using this

/-- The fallback pattern at the start of a double-quoted element. -/
theorem matchHere_tokenReFallback (a x post : List Char) (hgt : ∀ c ∈ a, c ≠ '>')
    (hx : x ≠ []) (hq : ∀ c ∈ x, isQuote c = false) (hsuf : ¬ "value=".toList <:+ x) :
    matchHere tokenReFallback (doubleQuoted a x ++ post) = some x := by
  have hdq : isQuote dq = true := by decide
  have e : doubleQuoted a x ++ post = "<input".toList ++
      (a ++ (("name=".toList ++ [dq] ++ "token".toList ++ [dq] ++ " value=".toList ++ [dq]) ++
        (x ++ dq :: '>' :: post))) := by
    simp [doubleQuoted]
  rw [e, tokenReFallback, matchHere_lit]
  have := matchHere_rep notGt 0 false
    [Item.lit "name=".toList, Item.one isQuote, Item.lit "token".toList, Item.one isQuote,
      Item.rep notGt 0 false, Item.lit "value=".toList, Item.one isQuote,
      Item.rep notQuote 1 true, Item.one isQuote]
    (a ++ (("name=".toList ++ [dq] ++ "token".toList ++ [dq] ++ " value=".toList ++ [dq]) ++
      (x ++ dq :: '>' :: post))) a.length x (by omega)
    (length_takeWhile_append_ge notGt a _ (fun c hc => by simpa [notGt] using hgt c hc))
    (by
      rw [List.drop_left]
      have e2 : ("name=".toList ++ [dq] ++ "token".toList ++ [dq] ++ " value=".toList ++ [dq]) ++
          (x ++ dq :: '>' :: post)
          = "name=".toList ++ (dq :: ("token".toList ++ (dq ::
              ([' '] ++ (("value=".toList ++ [dq]) ++ (x ++ dq :: '>' :: post)))))) := by
        simp
      rw [e2, matchHere_lit]
      simp only [matchHere, hdq, if_true]
      have h3 := matchHere_lit "token".toList
        [Item.one isQuote, Item.rep notGt 0 false, Item.lit "value=".toList, Item.one isQuote,
          Item.rep notQuote 1 true, Item.one isQuote]
        (dq :: ([' '] ++ (("value=".toList ++ [dq]) ++ (x ++ dq :: '>' :: post))))
      have h4 := matchHere_value_double x post hx hq hsuf
      simp only [matchHere, hdq, if_true] at h3 h4
      rw [h3]
      exact h4)
    (by
      intro k h1 h2
      apply later_none _ a
        ("name=".toList ++ [dq] ++ "token".toList ++ [dq] ++ " value=".toList ++ [dq]) x post dq
        _ _ _ k h1 h2
      · intro j hj1 hj2
        have hj3 : j < 20 := hj2
        interval_cases j <;> simp [matchHere, List.isPrefixOf, dq]
      · intro y hy
        apply lit_quote_none _ _ y post (fun c hc => hq c (mem_of_suffix hy c hc))
          (by decide)
        intro _
        simp [matchHere, List.isPrefixOf]
      · simp [matchHere, List.isPrefixOf])
  simpa using this
/-! ## One description across a poll -/

theorem txCounter_deltaCalls_other (d host : String) (p : Option Int) (v : Int)
    (h : d ≠ host) : txCounter (deltaCalls (Metric.txBytesAdd d) p v) host = 0 := by
  cases p with
  | none => simp [deltaCalls, txCounter, Metric.txAmount, h]
  | some q =>
    simp only [deltaCalls]
    split <;> simp [txCounter, Metric.txAmount, h]

theorem rxCounter_deltaCalls_other (d host : String) (p : Option Int) (v : Int)
    (h : d ≠ host) : rxCounter (deltaCalls (Metric.rxBytesAdd d) p v) host = 0 := by
  cases p with
  | none => simp [deltaCalls, rxCounter, Metric.rxAmount, h]
  | some q =>
    simp only [deltaCalls]
    split <;> simp [rxCounter, Metric.rxAmount, h]

/-- A client map with another description leaves the tx and rx state of `d`
as it was. -/
theorem collectClientMap_other (d : String) (r : Run) (m : GoMap)
    (h : getStringValue m "Description" "unknown" ≠ d) :
    (collectClientMap r m).prev.previousTxBytes d = r.prev.previousTxBytes d ∧
    txCounter (collectClientMap r m).out d = txCounter r.out d ∧
    (collectClientMap r m).prev.previousRxBytes d = r.prev.previousRxBytes d ∧
    rxCounter (collectClientMap r m).out d = rxCounter r.out d := by
  have h' : ¬ d = getStringValue m "Description" "unknown" := fun e => h e.symm
  refine ⟨?_, ?_, ?_, ?_⟩
  · rw [collectClientMap_prevTx]
    cases floatField m "TxBytes" <;> simp [setPrevious, h']
  · rw [collectClientMap_out, txCounter_append, txCounter_clientCalls]
    cases floatField m "TxBytes" <;> simp [txCounter_deltaCalls_other _ _ _ _ h]
  · rw [collectClientMap_prevRx]
    cases floatField m "RxBytes" <;> simp [setPrevious, h']
  · rw [collectClientMap_out, rxCounter_append, rxCounter_clientCalls]
    cases floatField m "RxBytes" <;> simp [rxCounter_deltaCalls_other _ _ _ _ h]

/-- The tx and rx state of `d` after a client map with description `d` only
depends on the tx and rx state of `d` before. -/
theorem collectClientMap_agree (d : String) (r1 r2 : Run) (m : GoMap)
    (h : getStringValue m "Description" "unknown" = d)
    (a1 : r1.prev.previousTxBytes d = r2.prev.previousTxBytes d)
    (a2 : txCounter r1.out d = txCounter r2.out d)
    (a3 : r1.prev.previousRxBytes d = r2.prev.previousRxBytes d)
    (a4 : rxCounter r1.out d = rxCounter r2.out d) :
    (collectClientMap r1 m).prev.previousTxBytes d
      = (collectClientMap r2 m).prev.previousTxBytes d ∧
    txCounter (collectClientMap r1 m).out d = txCounter (collectClientMap r2 m).out d ∧
    (collectClientMap r1 m).prev.previousRxBytes d
      = (collectClientMap r2 m).prev.previousRxBytes d ∧
    rxCounter (collectClientMap r1 m).out d = rxCounter (collectClientMap r2 m).out d := by
  refine ⟨?_, ?_, ?_, ?_⟩
  · rw [collectClientMap_prevTx, collectClientMap_prevTx]
    cases floatField m "TxBytes" <;> simp [setPrevious, h, a1]
  · rw [collectClientMap_out, collectClientMap_out, txCounter_append, txCounter_append,
      txCounter_clientCalls, txCounter_clientCalls, h, a1, a2]
  · rw [collectClientMap_prevRx, collectClientMap_prevRx]
    cases floatField m "RxBytes" <;> simp [setPrevious, h, a3]
  · rw [collectClientMap_out, collectClientMap_out, rxCounter_append, rxCounter_append,
      rxCounter_clientCalls, rxCounter_clientCalls, h, a3, a4]

/-- Over a list of client maps, the tx and rx state of `d` is the one the
client maps with description `d` alone produce. -/
theorem foldl_collectClientMap_agree (d : String) (ms : List GoMap) (r1 r2 : Run)
    (a1 : r1.prev.previousTxBytes d = r2.prev.previousTxBytes d)
    (a2 : txCounter r1.out d = txCounter r2.out d)
    (a3 : r1.prev.previousRxBytes d = r2.prev.previousRxBytes d)
    (a4 : rxCounter r1.out d = rxCounter r2.out d) :
    (ms.foldl collectClientMap r1).prev.previousTxBytes d
      = ((ms.filter (hasDescription d)).foldl collectClientMap r2).prev.previousTxBytes d ∧
    txCounter (ms.foldl collectClientMap r1).out d
      = txCounter ((ms.filter (hasDescription d)).foldl collectClientMap r2).out d ∧
    (ms.foldl collectClientMap r1).prev.previousRxBytes d
      = ((ms.filter (hasDescription d)).foldl collectClientMap r2).prev.previousRxBytes d ∧
    rxCounter (ms.foldl collectClientMap r1).out d
      = rxCounter ((ms.filter (hasDescription d)).foldl collectClientMap r2).out d := by
  induction ms generalizing r1 r2 with
  | nil => exact ⟨a1, a2, a3, a4⟩
  | cons m rest ih =>
    by_cases hm : getStringValue m "Description" "unknown" = d
    · have hf : hasDescription d m = true := by simp [hasDescription, hm]
      rw [List.filter_cons_of_pos hf, List.foldl_cons, List.foldl_cons]
      obtain ⟨b1, b2, b3, b4⟩ := collectClientMap_agree d r1 r2 m hm a1 a2 a3 a4
      exact ih _ _ b1 b2 b3 b4
    · have hf : ¬ (hasDescription d m = true) := by simp [hasDescription, hm]
      rw [List.filter_cons_of_neg hf, List.foldl_cons]
      obtain ⟨b1, b2, b3, b4⟩ := collectClientMap_other d r1 m hm
      exact ih _ _ (b1.trans a1) (b2.trans a2) (b3.trans a3) (b4.trans a4)

theorem txCounter_foldl_collectDevice (element : GoMap) (r : Run) (host : String) :
    txCounter (element.foldl collectDevice r).out host = txCounter r.out host ∧
    rxCounter (element.foldl collectDevice r).out host = rxCounter r.out host := by
  induction element generalizing r with
  | nil => exact ⟨rfl, rfl⟩
  | cons x rest ih =>
    rw [List.foldl_cons]
    refine ⟨(ih _).1.trans ?_, (ih _).2.trans ?_⟩
    · unfold collectDevice
      repeat' split
      all_goals simp [txCounter, Metric.txAmount]
    · unfold collectDevice
      repeat' split
      all_goals simp [rxCounter, Metric.rxAmount]

/-- A poll in which `m` is the one client map with description `d` leaves the
tx and rx state of `d` as that client map alone makes it. -/
theorem collectResponse_onlyClient (prev : Previous) (response : List GoMap) (d : String)
    (m : GoMap) (h : onlyClient d response m) :
    (collectResponse prev response).1.previousTxBytes d
      = (collectClientMap { prev := prev, clientCount := 0, out := [] } m).prev.previousTxBytes d ∧
    txCounter (collectResponse prev response).2 d = txCounter (clientCalls prev m) d ∧
    (collectResponse prev response).1.previousRxBytes d
      = (collectClientMap { prev := prev, clientCount := 0, out := [] } m).prev.previousRxBytes d ∧
    rxCounter (collectResponse prev response).2 d = rxCounter (clientCalls prev m) d := by
  have key := foldl_collectClientMap_agree d (clientMaps (response.getD 1 []))
    { prev := prev, clientCount := 0, out := [] } { prev := prev, clientCount := 0, out := [] }
    rfl rfl rfl rfl
  unfold onlyClient at h
  rw [h] at key
  simp only [List.foldl_cons, List.foldl_nil] at key
  obtain ⟨k1, k2, k3, k4⟩ := key
  rw [collectResponse_eq]
  refine ⟨k1, ?_, k3, ?_⟩
  · rw [txCounter_append, (txCounter_foldl_collectDevice _ _ _).1, k2, collectClientMap_out,
      txCounter_append]
    simp [txCounter, Metric.txAmount]
  · rw [rxCounter_append, (txCounter_foldl_collectDevice _ _ _).2, k4, collectClientMap_out,
      rxCounter_append]
    simp [rxCounter, Metric.rxAmount]
theorem signalGauge_append_other (a b : List Metric) (host : String)
    (hb : ∀ e ∈ b, ∀ v, e ≠ Metric.signalQualitySet host v) :
    signalGauge (a ++ b) host = signalGauge a host := by
  unfold signalGauge
  rw [List.foldl_append]
  generalize List.foldl _ none a = acc
  induction b generalizing acc with
  | nil => rfl
  | cons e b ih =>
    have hb' : ∀ e' ∈ b, ∀ v, e' ≠ Metric.signalQualitySet host v :=
      fun e' he' => hb e' (List.mem_cons_of_mem _ he')
    have he := hb e (List.mem_cons_self _ _)
    rw [List.foldl_cons]
    cases e with
    | signalQualitySet h v =>
      have hne : ¬ h = host := fun heq => he v (by rw [heq])
      simp only [if_neg hne]
      exact ih hb' acc
    | _ => exact ih hb' acc

theorem happinessGauge_append_other (a b : List Metric) (host : String)
    (hb : ∀ e ∈ b, ∀ v, e ≠ Metric.happinessSet host v) :
    happinessGauge (a ++ b) host = happinessGauge a host := by
  unfold happinessGauge
  rw [List.foldl_append]
  generalize List.foldl _ none a = acc
  induction b generalizing acc with
  | nil => rfl
  | cons e b ih =>
    have hb' : ∀ e' ∈ b, ∀ v, e' ≠ Metric.happinessSet host v :=
      fun e' he' => hb e' (List.mem_cons_of_mem _ he')
    have he := hb e (List.mem_cons_self _ _)
    rw [List.foldl_cons]
    cases e with
    | happinessSet h v =>
      have hne : ¬ h = host := fun heq => he v (by rw [heq])
      simp only [if_neg hne]
      exact ih hb' acc
    | _ => exact ih hb' acc

/-- A gauge call of a client map carries its description and the value of its
field. -/
theorem gauge_of_mem_clientCalls (p : Previous) (m : GoMap) (e : Metric)
    (he : e ∈ clientCalls p m) (h : String) (v : Int) :
    (e = Metric.signalQualitySet h v →
      h = getStringValue m "Description" "unknown" ∧ floatField m "SignalQuality" = some v) ∧
    (e = Metric.happinessSet h v →
      h = getStringValue m "Description" "unknown" ∧ floatField m "HappinessScore" = some v) := by
  simp only [clientCalls, List.mem_append] at he
  rcases he with ((he | he) | he) | he
  · cases hf : floatField m "TxBytes" with
    | none => simp [hf] at he
    | some x =>
      rw [hf] at he
      obtain ⟨a, ha⟩ := mem_deltaCalls _ _ _ _ he
      subst ha
      constructor <;> (intro heq; cases heq)
  · cases hf : floatField m "RxBytes" with
    | none => simp [hf] at he
    | some x =>
      rw [hf] at he
      obtain ⟨a, ha⟩ := mem_deltaCalls _ _ _ _ he
      subst ha
      constructor <;> (intro heq; cases heq)
  · cases hf : floatField m "SignalQuality" with
    | none => simp [hf] at he
    | some x =>
      simp [hf] at he
      subst he
      constructor
      · intro heq; cases heq; exact ⟨rfl, rfl⟩
      · intro heq; cases heq
  · cases hf : floatField m "HappinessScore" with
    | none => simp [hf] at he
    | some x =>
      simp [hf] at he
      subst he
      constructor
      · intro heq; cases heq
      · intro heq; cases heq; exact ⟨rfl, rfl⟩

theorem eq_of_onlyClient (d : String) (response : List GoMap) (m m1 : GoMap)
    (h : onlyClient d response m) (hm : m1 ∈ clientMaps (response.getD 1 []))
    (hd : getStringValue m1 "Description" "unknown" = d) : m1 = m := by
  have : m1 ∈ (clientMaps (response.getD 1 [])).filter (hasDescription d) :=
    List.mem_filter.mpr ⟨hm, by simp [hasDescription, hd]⟩
  rw [h] at this
  exact List.mem_singleton.mp this

/-- A poll in which the one client map with description `d` has no
SignalQuality (resp. HappinessScore) field leaves the signal-quality (resp.
happiness) gauge of `d` as the earlier calls `log` left it. -/
theorem gauges_of_onlyClient (prev : Previous) (response : List GoMap) (d : String)
    (m : GoMap) (log : List Metric) (h : onlyClient d response m) :
    (floatField m "SignalQuality" = none →
      signalGauge (log ++ (collectResponse prev response).2) d = signalGauge log d) ∧
    (floatField m "HappinessScore" = none →
      happinessGauge (log ++ (collectResponse prev response).2) d = happinessGauge log d) := by
  constructor
  · intro hf
    apply signalGauge_append_other
    intro e he v heq
    rcases mem_collectResponse prev response e he with ⟨m1, hm1, p, hp⟩ | ⟨_, hv⟩ | ⟨_, hv⟩ | hv
    · obtain ⟨hd, hval⟩ := (gauge_of_mem_clientCalls p m1 e hp d v).1 heq
      have := eq_of_onlyClient d response m m1 h hm1 hd.symm
      rw [this, hf] at hval
      cases hval
    · rw [hv] at heq; cases heq
    · rw [hv] at heq; cases heq
    · rw [hv] at heq; cases heq
  · intro hf
    apply happinessGauge_append_other
    intro e he v heq
    rcases mem_collectResponse prev response e he with ⟨m1, hm1, p, hp⟩ | ⟨_, hv⟩ | ⟨_, hv⟩ | hv
    · obtain ⟨hd, hval⟩ := (gauge_of_mem_clientCalls p m1 e hp d v).2 heq
      have := eq_of_onlyClient d response m m1 h hm1 hd.symm
      rw [this, hf] at hval
      cases hval
    · rw [hv] at heq; cases heq
    · rw [hv] at heq; cases heq
    · rw [hv] at heq; cases heq

/-! ## The claims -/

/-- C5 (evaluation at the failing inputs): when the status request answers
with status 200 and a body that is not JSON, or whose reading fails, `Collect`
returns an error and the client keeps its info token and its cookie; the next
cycle sends the status request without logging in again. -/
theorem collect_error_keeps_session :
    (Collect (routerWith 200 none) newCollector).1 = some "failed to parse metrics" ∧
    (Collect (routerWith 200 none) newCollector).2.1.client.infoToken = "0123abcdef" ∧
    (Collect (routerWith 200 none) newCollector).2.1.client.jar = ["sid=1"] ∧
    (Collect (routerWith 200 none)
        (Collect (routerWith 200 none) newCollector).2.1).2.1.client.sent
      = [Request.getLogin, Request.postLogin "abc" "secret", Request.getInfo,
         Request.postInfoAsync "0123abcdef", Request.postInfoAsync "0123abcdef"] ∧
    (Collect routerReadError newCollector).1 = some "failed to get metrics: unexpected EOF" ∧
    (Collect routerReadError newCollector).2.1.client.infoToken = "0123abcdef" ∧
    (Collect routerReadError newCollector).2.1.client.jar = ["sid=1"] :=
  ⟨rfl, rfl, rfl, rfl, rfl, rfl, rfl⟩

/-- C8: a client map without a TxBytes (resp. RxBytes, SignalQuality,
HappinessScore) field leaves the tx counter (resp. rx counter, signal-quality
gauge, happiness gauge) of every description as it was, leaves the stored
previous tx (resp. rx) values as they were, is counted all the same, and the
blocks of its other fields run as they do otherwise; so a poll in which that
client map is the only one with its description `d` adds nothing to the
counter of `d`, keeps the stored previous value of `d` and leaves the gauge of
`d` as it was. -/
theorem collect_missing_field (m : GoMap) :
    (∀ r : Run, (collectClientMap r m).clientCount = r.clientCount + 1) ∧
    (∀ r : Run, m.lookup "TxBytes" = none →
      (∀ host, txCounter (collectClientMap r m).out host = txCounter r.out host) ∧
      (collectClientMap r m).prev.previousTxBytes = r.prev.previousTxBytes ∧
      collectClientMap r m =
        stepHappiness (getStringValue m "Description" "unknown") m
          (stepSignal (getStringValue m "Description" "unknown") m
            (stepRx (getStringValue m "Description" "unknown") m
              { r with clientCount := r.clientCount + 1 }))) ∧
    (∀ r : Run, m.lookup "RxBytes" = none →
      (∀ host, rxCounter (collectClientMap r m).out host = rxCounter r.out host) ∧
      (collectClientMap r m).prev.previousRxBytes = r.prev.previousRxBytes ∧
      collectClientMap r m =
        stepHappiness (getStringValue m "Description" "unknown") m
          (stepSignal (getStringValue m "Description" "unknown") m
            (stepTx (getStringValue m "Description" "unknown") m
              { r with clientCount := r.clientCount + 1 }))) ∧
    (∀ r : Run, m.lookup "SignalQuality" = none →
      (∀ host, signalGauge (collectClientMap r m).out host = signalGauge r.out host) ∧
      collectClientMap r m =
        stepHappiness (getStringValue m "Description" "unknown") m
          (stepRx (getStringValue m "Description" "unknown") m
            (stepTx (getStringValue m "Description" "unknown") m
              { r with clientCount := r.clientCount + 1 }))) ∧
    (∀ r : Run, m.lookup "HappinessScore" = none →
      (∀ host, happinessGauge (collectClientMap r m).out host = happinessGauge r.out host) ∧
      collectClientMap r m =
        stepSignal (getStringValue m "Description" "unknown") m
          (stepRx (getStringValue m "Description" "unknown") m
            (stepTx (getStringValue m "Description" "unknown") m
              { r with clientCount := r.clientCount + 1 }))) ∧
    (∀ (prev : Previous) (response : List GoMap) (d : String) (log : List Metric),
      onlyClient d response m →
      (m.lookup "TxBytes" = none →
        txCounter (collectResponse prev response).2 d = 0 ∧
        (collectResponse prev response).1.previousTxBytes d = prev.previousTxBytes d) ∧
      (m.lookup "RxBytes" = none →
        rxCounter (collectResponse prev response).2 d = 0 ∧
        (collectResponse prev response).1.previousRxBytes d = prev.previousRxBytes d) ∧
      (m.lookup "SignalQuality" = none →
        signalGauge (log ++ (collectResponse prev response).2) d = signalGauge log d) ∧
      (m.lookup "HappinessScore" = none →
        happinessGauge (log ++ (collectResponse prev response).2) d = happinessGauge log d)) := by
  refine ⟨fun r => collectClientMap_clientCount r m, fun r h => ?_, fun r h => ?_,
    fun r h => ?_, fun r h => ?_, fun prev response d log honly => ⟨fun h => ?_, fun h => ?_,
      fun h => ?_, fun h => ?_⟩⟩
  · have hf := floatField_of_lookup_none m _ h
    refine ⟨fun host => ?_, ?_, ?_⟩
    · rw [collectClientMap_out, txCounter_append, txCounter_clientCalls, hf]; simp
    · rw [collectClientMap_prevTx, hf]
    · simp [collectClientMap, stepTx, hf]
  · have hf := floatField_of_lookup_none m _ h
    refine ⟨fun host => ?_, ?_, ?_⟩
    · rw [collectClientMap_out, rxCounter_append, rxCounter_clientCalls, hf]; simp
    · rw [collectClientMap_prevRx, hf]
    · simp [collectClientMap, stepRx, hf]
  · have hf := floatField_of_lookup_none m _ h
    refine ⟨fun host => ?_, ?_⟩
    · rw [collectClientMap_out]
      apply signalGauge_append
      intro e he h' v heq
      rcases mem_clientCalls _ _ _ he with ⟨_, _, _, h1⟩ | ⟨_, _, _, h1⟩ | ⟨_, _, h0, _⟩ |
        ⟨_, _, _, h1⟩
      · rw [h1] at heq; cases heq
      · rw [h1] at heq; cases heq
      · exact h0 hf
      · rw [h1] at heq; cases heq
    · simp [collectClientMap, stepSignal, hf]
  · have hf := floatField_of_lookup_none m _ h
    refine ⟨fun host => ?_, ?_⟩
    · rw [collectClientMap_out]
      apply happinessGauge_append
      intro e he h' v heq
      rcases mem_clientCalls _ _ _ he with ⟨_, _, _, h1⟩ | ⟨_, _, _, h1⟩ | ⟨_, _, _, h1⟩ |
        ⟨_, _, h0, _⟩
      · rw [h1] at heq; cases heq
      · rw [h1] at heq; cases heq
      · rw [h1] at heq; cases heq
      · exact h0 hf
    · simp [collectClientMap, stepHappiness, hf]
  · have hf := floatField_of_lookup_none m _ h
    obtain ⟨k1, k2, _, _⟩ := collectResponse_onlyClient prev response d m honly
    constructor
    · rw [k2, txCounter_clientCalls, hf]
    · rw [k1, collectClientMap_prevTx, hf]
  · have hf := floatField_of_lookup_none m _ h
    obtain ⟨_, _, k3, k4⟩ := collectResponse_onlyClient prev response d m honly
    constructor
    · rw [k4, rxCounter_clientCalls, hf]
    · rw [k3, collectClientMap_prevRx, hf]
  · exact (gauges_of_onlyClient prev response d m log honly).1 (floatField_of_lookup_none m _ h)
  · exact (gauges_of_onlyClient prev response d m log honly).2 (floatField_of_lookup_none m _ h)

/-- C8 (witness): a record of "phone" with RxBytes and no TxBytes leaves the tx
counter and the stored previous tx values as they were, and its rx block
runs. -/
theorem collect_missing_field_witness :
    (∀ host, txCounter (collectClientMap phonePrior
        [("Description", JSON.str "phone"), ("RxBytes", JSON.num 70)]).out host
      = txCounter phonePrior.out host) ∧
    (collectClientMap phonePrior
        [("Description", JSON.str "phone"), ("RxBytes", JSON.num 70)]).prev.previousTxBytes
      = phonePrior.prev.previousTxBytes ∧
    collectClientMap phonePrior [("Description", JSON.str "phone"), ("RxBytes", JSON.num 70)] =
      stepHappiness (getStringValue [("Description", JSON.str "phone"), ("RxBytes", JSON.num 70)]
          "Description" "unknown") [("Description", JSON.str "phone"), ("RxBytes", JSON.num 70)]
        (stepSignal (getStringValue [("Description", JSON.str "phone"), ("RxBytes", JSON.num 70)]
            "Description" "unknown") [("Description", JSON.str "phone"), ("RxBytes", JSON.num 70)]
          (stepRx (getStringValue [("Description", JSON.str "phone"), ("RxBytes", JSON.num 70)]
              "Description" "unknown") [("Description", JSON.str "phone"), ("RxBytes", JSON.num 70)]
            { phonePrior with clientCount := phonePrior.clientCount + 1 })) :=
  (collect_missing_field
    [("Description", JSON.str "phone"), ("RxBytes", JSON.num 70)]).2.1 phonePrior (by rfl)

/-- C9 (amended): the extraction yields `X` for a login page holding an element
`<input A name='token' value='X'>` (`A` non-empty and without `>`) before
which the single-quote pattern matches at no position, and for a login page
holding an element `<input A name="token" value="X">` (`A` without `>`) in
which the single-quote pattern matches nowhere and before which the fallback
pattern matches at no position, `X` being non-empty, without quote characters
and not ending in `value=`; the token found is the one posted; and when
neither pattern matches, `ensureLogin` returns an error after the request for
the login page, without posting credentials. -/
theorem csrfToken_extraction (pre a x post : List Char)
    (ha : ∀ c ∈ a, c ≠ '>') (hx : x ≠ []) (hq : ∀ c ∈ x, c ≠ sq ∧ c ≠ dq)
    (hsuf : ¬ "value=".toList <:+ x) :
    (a ≠ [] →
      (∀ i, i < pre.length →
        matchHere tokenRe ((pre ++ (singleQuoted a x ++ post)).drop i) = none) →
      csrfToken (pre ++ (singleQuoted a x ++ post)) = some x) ∧
    (findSubmatch tokenRe (pre ++ (doubleQuoted a x ++ post)) = none →
      (∀ i, i < pre.length →
        matchHere tokenReFallback ((pre ++ (doubleQuoted a x ++ post)).drop i) = none) →
      csrfToken (pre ++ (doubleQuoted a x ++ post)) = some x) ∧
    (∀ (rt : Router) (c : AmpliFiClient) (page : Response String) (tok : List Char),
      c.jar = [] → rt.getLogin = Except.ok page → page.readErr = none →
      csrfToken page.body.toList = some tok →
      (ensureLogin rt c).2.sent
        = c.sent ++ [Request.getLogin, Request.postLogin (String.mk tok) c.password]) ∧
    (∀ (rt : Router) (c : AmpliFiClient) (page : Response String),
      c.jar = [] → rt.getLogin = Except.ok page → page.readErr = none →
      findSubmatch tokenRe page.body.toList = none →
      findSubmatch tokenReFallback page.body.toList = none →
      (ensureLogin rt c).1 = Except.error "failed to find CSRF token in login page" ∧
      (ensureLogin rt c).2.sent = c.sent ++ [Request.getLogin]) := by
  refine ⟨fun hane hpre => ?_, fun hnone hpre => ?_, ?_, ?_⟩
  · have h := findSubmatch_eq tokenRe pre (singleQuoted a x ++ post) x hpre
      (matchHere_tokenRe a x post hane ha hx (fun c hc => (hq c hc).1) hsuf)
    simp [csrfToken, h]
  · have h := findSubmatch_eq tokenReFallback pre (doubleQuoted a x ++ post) x hpre
      (matchHere_tokenReFallback a x post ha hx
        (fun c hc => by simp [isQuote, (hq c hc).1, (hq c hc).2]) hsuf)
    simp [csrfToken, hnone, h]
  · intro rt c page tok hjar hget hread htok
    simp only [ensureLogin, hjar, List.length_nil, gt_iff_lt, lt_self_iff_false, if_false,
      hget, hread, htok]
    cases rt.postLogin (String.mk tok) c.password with
    | error e => simp
    | ok resp2 =>
      simp only
      split <;> simp
  · intro rt c page hjar hget hread h1 h2
    have hcs : csrfToken page.body.toList = none := by simp only [csrfToken, h1, h2]
    simp only [ensureLogin, hjar, List.length_nil, gt_iff_lt, lt_self_iff_false, if_false,
      hget, hread, hcs, List.nil_append, and_self]

/-- C9 (witness): the token `abc` is found in a page with a single-quoted
element and in a page with a double-quoted element. -/
theorem csrfToken_extraction_witness :
    csrfToken ("<form>".toList ++ (singleQuoted " type='hidden' ".toList "abc".toList
      ++ "</form>".toList)) = some "abc".toList ∧
    csrfToken ("<form>".toList ++ (doubleQuoted " type=hidden ".toList "abc".toList
      ++ "</form>".toList)) = some "abc".toList :=
  ⟨(csrfToken_extraction "<form>".toList " type='hidden' ".toList "abc".toList
      "</form>".toList (by decide) (by decide) (by decide) (by decide)).1
      (by decide) (by decide),
   (csrfToken_extraction "<form>".toList " type=hidden ".toList "abc".toList
      "</form>".toList (by decide) (by decide) (by decide) (by decide)).2.1
      (by decide) (by decide)⟩

/-- C9 (counterexample): a page with the element
`<input type='hidden' name='token' value='abcvalue='>` followed by
`<p class='x'>` yields the text between the two elements, not `abcvalue=`;
and a page with a single-quoted token `A` followed by a double-quoted element
with the token `B` yields `A`. -/
theorem csrfToken_wrong_group :
    csrfToken (singleQuoted " type='hidden' ".toList "abcvalue=".toList
      ++ "<p class='x'>".toList) = some "><p class=".toList ∧
    some "><p class=".toList ≠ some "abcvalue=".toList ∧
    csrfToken (singleQuoted " ".toList "A".toList ++ doubleQuoted " ".toList "B".toList)
      = some "A".toList ∧
    some "A".toList ≠ some "B".toList := by
  refine ⟨by rfl, by decide, by rfl, by decide⟩

/-- C10 (amended): once the credentials are posted and a response comes back,
`ensureLogin` returns success if and only if the status is 200 or 302; for
every other status it returns the error "login failed with status", followed
by the status code, a colon and the response body. -/
theorem ensureLogin_status (rt : Router) (c : AmpliFiClient) (page resp2 : Response String)
    (tok : List Char) (hjar : c.jar = []) (hget : rt.getLogin = Except.ok page)
    (hread : page.readErr = none) (htok : csrfToken page.body.toList = some tok)
    (hpost : rt.postLogin (String.mk tok) c.password = Except.ok resp2) :
    ((ensureLogin rt c).1 = Except.ok () ↔ resp2.statusCode = 200 ∨ resp2.statusCode = 302) ∧
    (¬ (resp2.statusCode = 200 ∨ resp2.statusCode = 302) →
      (ensureLogin rt c).1 = Except.error
        ("login failed with status " ++ toString resp2.statusCode ++ ": " ++ resp2.body)) := by
  simp only [ensureLogin, hjar, List.length_nil, gt_iff_lt, lt_self_iff_false, if_false, hget,
    hread, htok, hpost]
  by_cases h : resp2.statusCode ≠ 200 ∧ resp2.statusCode ≠ 302
  · rw [if_pos h]
    have h' : ¬ (resp2.statusCode = 200 ∨ resp2.statusCode = 302) := by tauto
    simp [h']
  · rw [if_neg h]
    have h' : resp2.statusCode = 200 ∨ resp2.statusCode = 302 := by tauto
    simp [h']

/-- C10 (witness): the status 302 after the post is a success. -/
theorem ensureLogin_status_witness :
    ((ensureLogin (routerWith 302 none) newCollector.client).1 = Except.ok () ↔
      (302 : Nat) = 200 ∨ (302 : Nat) = 302) ∧
    (¬ ((302 : Nat) = 200 ∨ (302 : Nat) = 302) →
      (ensureLogin (routerWith 302 none) newCollector.client).1 = Except.error
        ("login failed with status " ++ toString (302 : Nat) ++ ": " ++ "denied")) :=
  ensureLogin_status (routerWith 302 none) newCollector.client loginPage
    { statusCode := 302, body := "denied", readErr := none, cookies := ["sid=1"] }
    ['a', 'b', 'c'] (by rfl) (by rfl) (by rfl) (by rfl) (by rfl)

/-- C10 (counterexample): the redirect statuses 301, 303, 307 and 308 are
refused. -/
theorem ensureLogin_refuses_301 :
    (ensureLogin (routerWith 301 none) newCollector.client).1
      = Except.error "login failed with status 301: denied" ∧
    (ensureLogin (routerWith 303 none) newCollector.client).1
      = Except.error "login failed with status 303: denied" ∧
    (ensureLogin (routerWith 307 none) newCollector.client).1
      = Except.error "login failed with status 307: denied" ∧
    (ensureLogin (routerWith 308 none) newCollector.client).1
      = Except.error "login failed with status 308: denied" :=
  ⟨rfl, rfl, rfl, rfl⟩

end Geodesist
